import Mathlib

/-!
Verification development for the UFC fantasy league server (`server.js`).

The embedding models the relational state (users, leagues, memberships,
events, fighters, fights, picks) as Lean lists of records, and each HTTP
operation of the server as a pure function from that state (plus the
request) to a response and the updated state.  Identifiers are plain
strings, as the server coerces every id with `String(...)` before use.
JavaScript truthiness of a string (empty string is falsy) and of a
nullable column (NULL is falsy) are modelled explicitly.
-/

namespace UFC

/-- JavaScript truthiness of a string value: only `""` is falsy. -/
def truthyStr (s : String) : Bool := !(s == "")

/-- JavaScript truthiness of a nullable string column: NULL and `""` are falsy. -/
def truthyOpt (o : Option String) : Bool :=
  match o with
  | none => false
  | some s => !(s == "")

/-- The JavaScript `x || d` idiom on a nullable string column. -/
def jsOr (o : Option String) (d : String) : String :=
  match o with
  | none => d
  | some s => if s == "" then d else s

/-- A user row (`user` table): id, unique username, email. -/
structure User where
  userId : String
  username : String
  email : String
deriving DecidableEq

/-- A league row (`league` table). -/
structure League where
  leagueId : String
  name : String
  ownerId : String
  leagueCode : String
deriving DecidableEq

/-- A membership row (`membership` table): composite (user, league) identity. -/
structure Membership where
  userId : String
  leagueId : String
  role : String
deriving DecidableEq

/-- An event row (`event` table); the date is modelled as a Nat so that the
SQL `ORDER BY e.date DESC` is a linear order comparison. -/
structure Event where
  event_id : String
  event_name : String
  date : Nat
  location : String
deriving DecidableEq

/-- A fighter row (`fighter` table).  `wins`, `losses`, `draws` are nullable
integer columns (`none` models an absent value, so the JS guard
`f.wins !== undefined` can be translated). -/
structure Fighter where
  fighter_id : String
  name : String
  wins : Option Int
  losses : Option Int
  draws : Option Int
deriving DecidableEq

/-- A fight row (`fight` table): red/blue corners, optional winner,
method, finishing round and division are nullable columns. -/
structure Fight where
  fight_id : String
  event_id : String
  red_fighter_id : String
  blue_fighter_id : String
  winner_id : Option String
  method : Option String
  finish_round : Option String
  division : Option String
deriving DecidableEq

/-- A pick row (`pick` table), without the auto-increment surrogate key. -/
structure Pick where
  userId : String
  leagueId : String
  eventId : String
  fighterId : String
  pointsEarned : Int
deriving DecidableEq

/-- One entry of the `picks` array in the body of `POST /api/save-picks`:
`{fightId, fighterId}`, either field possibly absent. -/
structure Sel where
  fightId : Option String
  fighterId : Option String
deriving DecidableEq

/-! ### `POST /api/save-picks` (submitPicks) -/

/-- The JSON response of `POST /api/save-picks`. -/
structure SaveResp where
  success : Bool
  message : String
  picksCount : Option Nat
deriving DecidableEq

/-- Response for the `Missing required data` validation failure (HTTP 400). -/
def saveBadRequest : SaveResp := ⟨false, "Missing required data", none⟩

/-- Response when every attempted insertion failed (HTTP 500). -/
def saveAllFailed : SaveResp := ⟨false, "All picks failed to save. Check server logs.", none⟩

/-- The success message: `Saved N picks` with ` (M failed)` appended when failures occurred. -/
def saveMsg (n m : Nat) : String :=
  "Saved " ++ toString n ++ " picks" ++ (if 0 < m then " (" ++ toString m ++ " failed)" else "")

/-- The success response of `POST /api/save-picks`. -/
def saveOk (n m : Nat) : SaveResp := ⟨true, saveMsg n m, some n⟩

/-- Does a stored pick lie in the (user, league, event) scope of a submission?
This is the WHERE clause of the `DELETE FROM Pick` statement. -/
def inScope (userId leagueId eventId : String) (p : Pick) : Bool :=
  p.userId == userId && p.leagueId == leagueId && p.eventId == eventId

/-- The pick row inserted for one selection: ids copied from the request,
the fighter id trimmed (`String(pick.fighterId).trim()`), `PointsEarned = 0`. -/
def mkPick (userId leagueId eventId : String) (s : Sel) : Pick :=
  ⟨userId, leagueId, eventId, ((s.fighterId).getD "").trim, 0⟩

/-- The resilient insertion loop of `POST /api/save-picks`.  `ins i` tells
whether the INSERT attempted for the `i`-th entry of the original `picks`
array succeeds (the database may reject individual rows); `i` is the index
of the head of `l` in the original array.  Returns the list of successfully
inserted picks (in order) together with `savedCount` and `errorCount`. -/
def runInserts (ins : Nat → Bool) (userId leagueId eventId : String) :
    List Sel → Nat → List Pick × Nat × Nat
  | [], _ => ([], 0, 0)
  | s :: rest, i =>
    let r := runInserts ins userId leagueId eventId rest (i + 1)
    if truthyOpt s.fighterId then
      if ins i then (mkPick userId leagueId eventId s :: r.1, r.2.1 + 1, r.2.2)
      else (r.1, r.2.1, r.2.2 + 1)
    else r

/-- Operation `POST /api/save-picks`: validate the body (JS truthiness: an absent
`picks` field fails, an empty array passes), delete every pick in the
(user, league, event) scope, run the resilient insertion loop, and fail
only when every attempted insertion failed. -/
def submitPicks (ins : Nat → Bool) (st : List Pick)
    (userId leagueId eventId : String) (picks : Option (List Sel)) :
    SaveResp × List Pick :=
  if !(truthyStr userId && truthyStr leagueId && truthyStr eventId && picks.isSome) then
    (saveBadRequest, st)
  else
    let pl := picks.getD []
    let afterDel := st.filter (fun p => !inScope userId leagueId eventId p)
    let r := runInserts ins userId leagueId eventId pl 0
    let st' := afterDel ++ r.1
    if r.2.1 == 0 && decide (0 < r.2.2) then (saveAllFailed, st')
    else (saveOk r.2.1 r.2.2, st')

/-! ### Claim-side view of the insertion loop -/

/-- The selections the loop attempts to insert: those whose `fighterId` is
truthy, paired with their index in the original array. -/
def attemptedSels (pl : List Sel) : List (Nat × Sel) :=
  (pl.enum).filter (fun p => truthyOpt p.2.fighterId)

/-- The attempted selections whose insertion succeeds. -/
def okSels (ins : Nat → Bool) (pl : List Sel) : List (Nat × Sel) :=
  (attemptedSels pl).filter (fun p => ins p.1)

/-- The attempted selections whose insertion fails. -/
def failSels (ins : Nat → Bool) (pl : List Sel) : List (Nat × Sel) :=
  (attemptedSels pl).filter (fun p => !ins p.1)

/-! ### `DELETE /api/league/:leagueId` -/

/-- Outcomes of `DELETE /api/league/:leagueId`. -/
inductive DelResult where
  | badRequest
  | conflictMembers
  | conflictPicks
  | notFound
  | ok
deriving DecidableEq

/-- Operation `DELETE /api/league/:leagueId`: refuse when a membership references the
league, then when a pick references it; otherwise run the DELETE and report
not-found when no row was affected.  Returns the outcome and the league
table after the call (memberships and picks are never written). -/
def deleteLeague (leagues : List League) (ms : List Membership) (picks : List Pick)
    (leagueId : String) : DelResult × List League :=
  if !truthyStr leagueId then (.badRequest, leagues)
  else if 0 < (ms.filter (fun m => m.leagueId == leagueId)).length then
    (.conflictMembers, leagues)
  else if 0 < (picks.filter (fun p => p.leagueId == leagueId)).length then
    (.conflictPicks, leagues)
  else
    let remaining := leagues.filter (fun l => !(l.leagueId == leagueId))
    if (leagues.filter (fun l => l.leagueId == leagueId)).length == 0 then
      (.notFound, remaining)
    else (.ok, remaining)

/-! ### `POST /api/join-league` -/

/-- Outcomes of `POST /api/join-league`. -/
inductive JoinResult where
  | badRequest
  | invalidCode
  | alreadyMember
  | joined (leagueId : String)
deriving DecidableEq

/-- Operation `POST /api/join-league`: find the league by code (`leagues[0]` of the
SELECT), reject when the user already holds a membership in it, otherwise
insert a `Member` membership.  Returns the outcome and the membership table
after the call. -/
def joinLeague (leagues : List League) (ms : List Membership)
    (leagueCode userId : String) : JoinResult × List Membership :=
  if !(truthyStr leagueCode && truthyStr userId) then (.badRequest, ms)
  else
    match (leagues.filter (fun l => l.leagueCode == leagueCode)).head? with
    | none => (.invalidCode, ms)
    | some league =>
      if 0 < (ms.filter (fun m => m.userId == userId && m.leagueId == league.leagueId)).length then
        (.alreadyMember, ms)
      else
        (.joined league.leagueId, ms ++ [⟨userId, league.leagueId, "Member"⟩])

/-! ### `GET /api/leaderboard/:leagueId` -/

/-- One leaderboard row: `u.UserID, u.Username, u.Email, TotalPoints`. -/
structure LBRow where
  userId : String
  username : String
  email : String
  totalPoints : Int
deriving DecidableEq

/-- Number of membership rows joining a given user into the league:
`INNER JOIN membership m ON u.UserID = m.UserID ... WHERE m.LeagueID = ?`. -/
def memCount (ms : List Membership) (leagueId userId : String) : Nat :=
  (ms.filter (fun m => m.leagueId == leagueId && m.userId == userId)).length

/-- The rows of `user INNER JOIN membership` restricted to the league:
each user appears once per matching membership row. -/
def joinUM (users : List User) (ms : List Membership) (leagueId : String) : List User :=
  users.flatMap (fun u => List.replicate (memCount ms leagueId u.userId) u)

/-- Equality of the SQL grouping key `(u.UserID, u.Username, u.Email)`. -/
def userKeyEq (a b : User) : Bool :=
  a.userId == b.userId && a.username == b.username && a.email == b.email

/-- The distinct grouping keys of `GROUP BY u.UserID, u.Username, u.Email`,
in order of first appearance. -/
def groupKeys : List User → List User
  | [] => []
  | u :: rest => u :: groupKeys (rest.filter (fun v => !userKeyEq v u))
termination_by l => l.length
decreasing_by
  simpa using Nat.lt_succ_of_le (List.length_filter_le _ rest)

/-- Aggregation `SUM(p.PointsEarned)` over the user's picks restricted to the league:
`LEFT JOIN pick p ON u.UserID = p.UserID AND p.LeagueID = ?`. -/
def sumPoints (picks : List Pick) (leagueId userId : String) : Int :=
  ((picks.filter (fun p => p.userId == userId && p.leagueId == leagueId)).map
    (fun p => p.pointsEarned)).sum

/-- The aggregated row for one grouping key: the group holds one copy of the
key per membership row, each left-joined to the user's picks in the league,
so `COALESCE(SUM(p.PointsEarned), 0)` is the group multiplicity times the
user's pick-point sum. -/
def mkRow (jr : List User) (picks : List Pick) (leagueId : String) (u : User) : LBRow :=
  ⟨u.userId, u.username, u.email,
    ((jr.filter (fun v => userKeyEq v u)).length : Int) * sumPoints picks leagueId u.userId⟩

/-- The SQL ordering `ORDER BY TotalPoints DESC, u.Username ASC`. -/
def lbRel (a b : LBRow) : Prop :=
  b.totalPoints < a.totalPoints ∨ (a.totalPoints = b.totalPoints ∧ a.username ≤ b.username)

instance : DecidableRel lbRel := fun a b => by
  unfold lbRel
  exact inferInstance

instance : IsTotal LBRow lbRel where
  total a b := by
    unfold lbRel
    rcases lt_trichotomy a.totalPoints b.totalPoints with h | h | h
    · exact Or.inr (Or.inl h)
    · rcases le_total a.username b.username with hu | hu
      · exact Or.inl (Or.inr ⟨h, hu⟩)
      · exact Or.inr (Or.inr ⟨h.symm, hu⟩)
    · exact Or.inl (Or.inl h)

instance : IsTrans LBRow lbRel where
  trans a b c hab hbc := by
    unfold lbRel at *
    rcases hab with h1 | ⟨h1, h1u⟩
    · rcases hbc with h2 | ⟨h2, _⟩
      · exact Or.inl (by omega)
      · exact Or.inl (by omega)
    · rcases hbc with h2 | ⟨h2, h2u⟩
      · exact Or.inl (by omega)
      · exact Or.inr ⟨by omega, h1u.trans h2u⟩

/-- Operation `GET /api/leaderboard/:leagueId`: join users to memberships in the
league, group by the user key, aggregate points, and order by total points
descending then username ascending. -/
def getLeaderboard (users : List User) (ms : List Membership) (picks : List Pick)
    (leagueId : String) : List LBRow :=
  let jr := joinUM users ms leagueId
  List.insertionSort lbRel ((groupKeys jr).map (mkRow jr picks leagueId))

/-! ### `GET /api/event/:eventId/fights` -/

/-- The name/record entry stored in the fighter map. -/
structure FInfo where
  name : String
  record : String
deriving DecidableEq

/-- JS template rendering of a nullable integer column. -/
def jsShowOptInt (o : Option Int) : String :=
  match o with
  | none => "undefined"
  | some n => toString n

/-- The record string: `wins-losses-draws` when `f.wins !== undefined`,
otherwise the `N/A` sentinel. -/
def recordStr (f : Fighter) : String :=
  match f.wins with
  | some _ => jsShowOptInt f.wins ++ "-" ++ jsShowOptInt f.losses ++ "-" ++ jsShowOptInt f.draws
  | none => "N/A"

/-- The fighter map built by `allFighters.forEach` (a later row with the
same id overwrites an earlier one), queried at one id. -/
def lookupFighterInfo (fighters : List Fighter) (id : String) : Option FInfo :=
  fighters.foldl (fun acc f => if f.fighter_id == id then some ⟨f.name, recordStr f⟩ else acc) none

/-- One fight view record of `GET /api/event/:eventId/fights`. -/
structure FightView where
  fightId : String
  fighterAId : String
  fighterBId : String
  fighterAName : String
  fighterARecord : String
  fighterBName : String
  fighterBRecord : String
  weightClass : String
  result : String
  method : String
  round : String
deriving DecidableEq

/-- Build one fight view row: corner lookups fall back to the
`{name:'Unknown', record:''}` sentinel, the result text is derived from
`winner_id`, and division/method/round fall back through `||`. -/
def mkFightView (fighters : List Fighter) (row : Fight) : FightView :=
  let idA := row.red_fighter_id
  let idB := row.blue_fighter_id
  let fighterA := (lookupFighterInfo fighters idA).getD ⟨"Unknown", ""⟩
  let fighterB := (lookupFighterInfo fighters idB).getD ⟨"Unknown", ""⟩
  let resultText :=
    if truthyOpt row.winner_id then
      if row.winner_id == some idA then fighterA.name ++ " Win"
      else if row.winner_id == some idB then fighterB.name ++ " Win"
      else "Draw/No Contest"
    else "Pending"
  ⟨row.fight_id, idA, idB, fighterA.name, fighterA.record, fighterB.name, fighterB.record,
    jsOr row.division "Catchweight", resultText, jsOr row.method "-", jsOr row.finish_round "-"⟩

/-- Operation `GET /api/event/:eventId/fights`: select the event's fights and map each
through the fighter map. -/
def getFightsForEvent (fights : List Fight) (fighters : List Fighter)
    (eventId : String) : List FightView :=
  (fights.filter (fun f => f.event_id == eventId)).map (mkFightView fighters)

/-! ### `GET /api/fighter/history` -/

/-- Does `needle` start `hay`? (character-list matching). -/
def startsWithChars : List Char → List Char → Bool
  | _, [] => true
  | [], _ :: _ => false
  | h :: hs, n :: ns => h == n && startsWithChars hs ns

/-- Substring containment on character lists. -/
def hasSub : List Char → List Char → Bool
  | [], needle => needle.isEmpty
  | h :: hs, needle => startsWithChars (h :: hs) needle || hasSub hs needle

/-- Matching `WHERE name LIKE` with a percent-wrapped query under MySQL's case-insensitive collation:
case-insensitive substring match. -/
def nameLike (q name : String) : Bool :=
  hasSub (name.toList.map Char.toLower) (q.toList.map Char.toLower)

/-- The fighters matched by the name query. -/
def matchedFighters (fighters : List Fighter) (q : String) : List Fighter :=
  fighters.filter (fun f => nameLike q f.name)

/-- One row of the history join: the fight joined to its event and to the
fighter records of both corners. -/
structure JoinRow where
  fight : Fight
  event : Event
  fa : Fighter
  fb : Fighter
deriving DecidableEq

/-- The rows of the history SELECT before ordering: fights with a matched
fighter in either corner, inner-joined to `event` and to both corner
fighters. -/
def historyJoinRows (fights : List Fight) (events : List Event)
    (fighters : List Fighter) (ids : List String) : List JoinRow :=
  fights.flatMap (fun f =>
    if ids.contains f.red_fighter_id || ids.contains f.blue_fighter_id then
      (events.filter (fun e => e.event_id == f.event_id)).flatMap (fun e =>
        (fighters.filter (fun x => x.fighter_id == f.red_fighter_id)).flatMap (fun fa =>
          (fighters.filter (fun x => x.fighter_id == f.blue_fighter_id)).map (fun fb =>
            ⟨f, e, fa, fb⟩)))
    else [])

/-- The SQL ordering `ORDER BY e.date DESC` on join rows. -/
def dateDescRel (a b : JoinRow) : Prop := b.event.date ≤ a.event.date

instance : DecidableRel dateDescRel := fun a b => by
  unfold dateDescRel
  exact inferInstance

instance : IsTotal JoinRow dateDescRel where
  total a b := Nat.le_total b.event.date a.event.date

instance : IsTrans JoinRow dateDescRel where
  trans _ _ _ hab hbc := Nat.le_trans hbc hab

/-- One processed record of the fighter-history response. -/
structure HistRow where
  eventName : String
  eventDate : Nat
  location : String
  opponent : String
  result : String
  method : Option String
  round : Option String
deriving DecidableEq

/-- Process one join row relative to the matched-fighter id set: decide the
corner (`isFighterA`), read the opponent from the other corner, and derive
Win/Loss/Draw/No Contest/Pending from `winner_id` and `method`. -/
def processFight (ids : List String) (jr : JoinRow) : HistRow :=
  let isFighterA := ids.contains jr.fight.red_fighter_id
  let opponent := if isFighterA then jr.fb.name else jr.fa.name
  let result :=
    if truthyOpt jr.fight.winner_id then
      let myId := if isFighterA then jr.fight.red_fighter_id else jr.fight.blue_fighter_id
      if jr.fight.winner_id == some myId then "Win" else "Loss"
    else if jr.fight.method == some "Draw" || jr.fight.method == some "No Contest" then
      (jr.fight.method).getD ""
    else "Pending"
  ⟨jr.event.event_name, jr.event.date, jr.event.location, opponent, result,
    jr.fight.method, jr.fight.finish_round⟩

/-- The JSON response of `GET /api/fighter/history`. -/
structure HistResp where
  success : Bool
  data : List HistRow
  fighters : List Fighter
  message : Option String
deriving DecidableEq

/-- Operation `GET /api/fighter/history?name=`: validate the query, match fighters by
name, return the `No fighters found` message on an empty match, otherwise
pool all the matched fighters' fights, order them by descending event date
and derive each relative outcome. -/
def getFighterHistory (fighters : List Fighter) (events : List Event)
    (fights : List Fight) (q : String) : HistResp :=
  if !truthyStr q then ⟨false, [], [], some "Fighter name is required"⟩
  else
    let matched := matchedFighters fighters q
    if matched.isEmpty then ⟨true, [], [], some "No fighters found"⟩
    else
      let ids := matched.map (fun f => f.fighter_id)
      let rows := List.insertionSort dateDescRel (historyJoinRows fights events fighters ids)
      ⟨true, rows.map (processFight ids), matched, none⟩

/-! ### Helper lemmas: the insertion loop -/

/-- The attempted selections when the head of the list has index `n`. -/
def attemptedFrom (pl : List Sel) (n : Nat) : List (Nat × Sel) :=
  (pl.enumFrom n).filter (fun p => truthyOpt p.2.fighterId)

/-- The attempted selections (head index `n`) whose insertion succeeds. -/
def okFrom (ins : Nat → Bool) (pl : List Sel) (n : Nat) : List (Nat × Sel) :=
  (attemptedFrom pl n).filter (fun p => ins p.1)

/-- The attempted selections (head index `n`) whose insertion fails. -/
def failFrom (ins : Nat → Bool) (pl : List Sel) (n : Nat) : List (Nat × Sel) :=
  (attemptedFrom pl n).filter (fun p => !ins p.1)

theorem attemptedSels_eq (pl : List Sel) : attemptedSels pl = attemptedFrom pl 0 := rfl

theorem okSels_eq (ins : Nat → Bool) (pl : List Sel) : okSels ins pl = okFrom ins pl 0 := rfl

theorem failSels_eq (ins : Nat → Bool) (pl : List Sel) : failSels ins pl = failFrom ins pl 0 := rfl

/-- The insertion loop inserts exactly the attempted-and-successful
selections (in order) and counts successes and failures. -/
theorem runInserts_eq (ins : Nat → Bool) (u l e : String) (pl : List Sel) (n : Nat) :
    runInserts ins u l e pl n =
      ((okFrom ins pl n).map (fun p => mkPick u l e p.2),
        (okFrom ins pl n).length, (failFrom ins pl n).length) := by
  induction pl generalizing n with
  | nil => simp [runInserts, okFrom, failFrom, attemptedFrom, List.enumFrom]
  | cons s rest ih =>
    by_cases ht : truthyOpt s.fighterId
    · by_cases hins : ins n
      · simp [runInserts, okFrom, failFrom, attemptedFrom, List.enumFrom_cons,
          List.filter_cons, ht, hins, ih]
      · simp [runInserts, okFrom, failFrom, attemptedFrom, List.enumFrom_cons,
          List.filter_cons, ht, hins, ih]
    · simp [runInserts, okFrom, failFrom, attemptedFrom, List.enumFrom_cons,
        List.filter_cons, ht, ih]

/-- Every pick produced by the insertion loop lies in the submission's
(user, league, event) scope and carries zero points. -/
theorem mem_runInserts (ins : Nat → Bool) (u l e : String) (pl : List Sel) (n : Nat)
    (q : Pick) (hq : q ∈ (runInserts ins u l e pl n).1) :
    inScope u l e q = true ∧ q.pointsEarned = 0 := by
  rw [runInserts_eq] at hq
  simp only [List.mem_map] at hq
  obtain ⟨p, _, rfl⟩ := hq
  constructor
  · simp [inScope, mkPick]
  · rfl

/-- When every selection carries no (truthy) fighter id, the loop inserts
nothing and counts nothing. -/
theorem runInserts_all_skipped (ins : Nat → Bool) (u l e : String) (pl : List Sel) (n : Nat)
    (hall : ∀ s ∈ pl, truthyOpt s.fighterId = false) :
    runInserts ins u l e pl n = ([], 0, 0) := by
  induction pl generalizing n with
  | nil => rfl
  | cons s rest ih =>
    have hs : truthyOpt s.fighterId = false := hall s (List.mem_cons_self s rest)
    have hr := ih (n + 1) (fun t ht => hall t (List.mem_cons_of_mem s ht))
    simp [runInserts, hs, hr]

/-- After a validated submission the stored picks are: the old picks outside
the (user, league, event) scope, followed by the successfully inserted ones. -/
theorem submitPicks_snd (ins : Nat → Bool) (st : List Pick) (u l e : String) (pl : List Sel)
    (hu : truthyStr u = true) (hl : truthyStr l = true) (he : truthyStr e = true) :
    (submitPicks ins st u l e (some pl)).2 =
      st.filter (fun p => !inScope u l e p) ++ (okSels ins pl).map (fun p => mkPick u l e p.2) := by
  unfold submitPicks
  simp only [hu, hl, he, Option.isSome_some, Bool.and_self, Bool.and_true, Bool.not_true,
    Bool.false_eq_true, if_false, Option.getD_some, runInserts_eq, okSels_eq]
  split <;> rfl

/-- The response of a validated submission: `All picks failed` exactly when
no insertion succeeded but some failed, otherwise the success response
carrying both counts. -/
theorem submitPicks_fst (ins : Nat → Bool) (st : List Pick) (u l e : String) (pl : List Sel)
    (hu : truthyStr u = true) (hl : truthyStr l = true) (he : truthyStr e = true) :
    (submitPicks ins st u l e (some pl)).1 =
      if (okSels ins pl).length == 0 && decide (0 < (failSels ins pl).length)
      then saveAllFailed
      else saveOk (okSels ins pl).length (failSels ins pl).length := by
  unfold submitPicks
  simp only [hu, hl, he, Option.isSome_some, Bool.and_self, Bool.and_true, Bool.not_true,
    Bool.false_eq_true, if_false, Option.getD_some, runInserts_eq, okSels_eq, failSels_eq]
  split <;> rfl

/-- Every pick built from a successful selection lies in the submission scope. -/
theorem inserted_inScope (ins : Nat → Bool) (u l e : String) (pl : List Sel)
    (q : Pick) (hq : q ∈ (okSels ins pl).map (fun p => mkPick u l e p.2)) :
    inScope u l e q = true := by
  simp only [List.mem_map] at hq
  obtain ⟨p, _, rfl⟩ := hq
  simp [inScope, mkPick]

/-- C1: a submission by `submitPicks` with a non-empty selection list leaves,
for the (userId, leagueId, eventId) scope, exactly the newly inserted picks,
each with `PointsEarned = 0`; no prior pick in that scope survives, and picks
of other users, leagues or events are unchanged. -/
theorem C1_replace_on_resubmit (ins : Nat → Bool) (st : List Pick) (u l e : String)
    (pl : List Sel) (hu : truthyStr u = true) (hl : truthyStr l = true)
    (he : truthyStr e = true) (_hne : pl ≠ []) :
    ((submitPicks ins st u l e (some pl)).2.filter (inScope u l e)
        = (okSels ins pl).map (fun p => mkPick u l e p.2)) ∧
    (∀ q ∈ (okSels ins pl).map (fun p => mkPick u l e p.2), q.pointsEarned = 0) ∧
    ((submitPicks ins st u l e (some pl)).2.filter (fun p => !inScope u l e p)
        = st.filter (fun p => !inScope u l e p)) := by
  rw [submitPicks_snd ins st u l e pl hu hl he]
  refine ⟨?_, ?_, ?_⟩
  · rw [List.filter_append, List.filter_filter]
    have h1 : ∀ p : Pick, (inScope u l e p && !inScope u l e p) = false := by
      intro p
      cases inScope u l e p <;> rfl
    simp only [h1, List.filter_false, List.nil_append]
    exact List.filter_eq_self.mpr (fun q hq => inserted_inScope ins u l e pl q hq)
  · intro q hq
    simp only [List.mem_map] at hq
    obtain ⟨p, _, rfl⟩ := hq
    rfl
  · rw [List.filter_append, List.filter_filter]
    have h1 : ∀ p : Pick, (!inScope u l e p && !inScope u l e p) = (!inScope u l e p) := by
      intro p
      cases inScope u l e p <;> rfl
    have h2 : ((okSels ins pl).map (fun p => mkPick u l e p.2)).filter
        (fun p => !inScope u l e p) = [] := by
      refine List.filter_eq_nil_iff.mpr (fun q hq => ?_)
      rw [inserted_inScope ins u l e pl q hq]
      decide
    simp only [h1, h2, List.append_nil]

/-- Witness for C1 at a concrete submission of one selection. -/
theorem C1_replace_on_resubmit_wit :
    truthyStr "u" = true ∧
    (((submitPicks (fun _ => true) [⟨"u", "l", "e", "old", 3⟩] "u" "l" "e"
        (some [⟨none, some "f1"⟩])).2.filter (inScope "u" "l" "e")
        = (okSels (fun _ => true) [⟨none, some "f1"⟩]).map (fun p => mkPick "u" "l" "e" p.2)) ∧
    (∀ q ∈ (okSels (fun _ => true) [⟨none, some "f1"⟩]).map (fun p => mkPick "u" "l" "e" p.2),
        q.pointsEarned = 0) ∧
    (((submitPicks (fun _ => true) [⟨"u", "l", "e", "old", 3⟩] "u" "l" "e"
        (some [⟨none, some "f1"⟩])).2.filter (fun p => !inScope "u" "l" "e" p))
        = ([⟨"u", "l", "e", "old", 3⟩] : List Pick).filter (fun p => !inScope "u" "l" "e" p))) :=
  ⟨by decide,
    C1_replace_on_resubmit (fun _ => true) [⟨"u", "l", "e", "old", 3⟩] "u" "l" "e"
      [⟨none, some "f1"⟩] (by decide) (by decide) (by decide) (by decide)⟩

/-- Counterexample to C2: with one stored pick in scope, a submission whose
selection list is empty passes validation (an empty array is truthy in
JavaScript), returns success with `picksCount 0`, and the prior pick is
deleted — the call neither fails nor leaves the ledger unchanged. -/
theorem C2_cex :
    (submitPicks (fun _ => true) [⟨"1", "2", "3", "9", 5⟩] "1" "2" "3" (some [])).1
      = saveOk 0 0 ∧
    (saveOk 0 0).success = true ∧
    (submitPicks (fun _ => true) [⟨"1", "2", "3", "9", 5⟩] "1" "2" "3" (some [])).2 = [] := by
  decide

/-- C2 (amended): a submission whose selection list is empty passes the
`Missing required data` validation (an empty array is truthy), still deletes
every stored pick for (userId, leagueId, eventId), inserts nothing, and
returns success with `picksCount = 0` — it is not rejected and the scope is
wiped, not preserved. -/
theorem C2_empty_list_amended (ins : Nat → Bool) (st : List Pick) (u l e : String)
    (hu : truthyStr u = true) (hl : truthyStr l = true) (he : truthyStr e = true) :
    submitPicks ins st u l e (some []) =
      (saveOk 0 0, st.filter (fun p => !inScope u l e p)) := by
  unfold submitPicks
  simp only [hu, hl, he, Option.isSome_some, Bool.and_self, Bool.and_true, Bool.not_true,
    Bool.false_eq_true, if_false, Option.getD_some]
  simp [runInserts]

/-- Witness for the amended C2 at a concrete state. -/
theorem C2_empty_list_amended_wit :
    truthyStr "1" = true ∧
    submitPicks (fun _ => true) [⟨"1", "2", "3", "9", 5⟩, ⟨"x", "2", "3", "9", 7⟩] "1" "2" "3"
        (some []) =
      (saveOk 0 0,
        ([⟨"1", "2", "3", "9", 5⟩, ⟨"x", "2", "3", "9", 7⟩] : List Pick).filter
          (fun p => !inScope "1" "2" "3" p)) :=
  ⟨by decide,
    C2_empty_list_amended (fun _ => true) [⟨"1", "2", "3", "9", 5⟩, ⟨"x", "2", "3", "9", 7⟩]
      "1" "2" "3" (by decide) (by decide) (by decide)⟩

/-- C4: within one submission each insertion is attempted independently — a
failing selection does not abort its siblings, so exactly the selections
whose own insertion succeeds end up inserted; the operation computes the
counts of succeeded and failed insertions and reports them in the success
response; and the whole call answers `All picks failed` exactly when at
least one selection was attempted and every attempted one failed. -/
theorem C4_partial_failure (ins : Nat → Bool) (st : List Pick) (u l e : String)
    (pl : List Sel) (hu : truthyStr u = true) (hl : truthyStr l = true)
    (he : truthyStr e = true) (_hne : pl ≠ []) :
    ((runInserts ins u l e pl 0).1 = (okSels ins pl).map (fun p => mkPick u l e p.2)) ∧
    ((runInserts ins u l e pl 0).2.1 = (okSels ins pl).length ∧
      (runInserts ins u l e pl 0).2.2 = (failSels ins pl).length) ∧
    ((submitPicks ins st u l e (some pl)).1 = saveAllFailed ↔
      (attemptedSels pl ≠ [] ∧ ∀ p ∈ attemptedSels pl, ins p.1 = false)) ∧
    (¬(attemptedSels pl ≠ [] ∧ ∀ p ∈ attemptedSels pl, ins p.1 = false) →
      (submitPicks ins st u l e (some pl)).1 =
        saveOk (okSels ins pl).length (failSels ins pl).length) := by
  have hok : okSels ins pl = (attemptedSels pl).filter (fun p => ins p.1) := rfl
  have hfail : failSels ins pl = (attemptedSels pl).filter (fun p => !ins p.1) := rfl
  have hcond : ((okSels ins pl).length == 0 && decide (0 < (failSels ins pl).length)) = true ↔
      (attemptedSels pl ≠ [] ∧ ∀ p ∈ attemptedSels pl, ins p.1 = false) := by
    rw [Bool.and_eq_true, beq_iff_eq, List.length_eq_zero, decide_eq_true_iff]
    constructor
    · rintro ⟨hoknil, hfailpos⟩
      have hallfail : ∀ p ∈ attemptedSels pl, ins p.1 = false := by
        intro p hp
        have := List.filter_eq_nil_iff.mp (hok ▸ hoknil) p hp
        simpa using this
      refine ⟨?_, hallfail⟩
      intro habs
      rw [hfail, habs] at hfailpos
      simp at hfailpos
    · rintro ⟨hne, hallfail⟩
      constructor
      · rw [hok]
        exact List.filter_eq_nil_iff.mpr (fun p hp => by simp [hallfail p hp])
      · rw [hfail, List.filter_eq_self.mpr (fun p hp => by simp [hallfail p hp])]
        exact List.length_pos.mpr hne
  refine ⟨?_, ⟨?_, ?_⟩, ?_, ?_⟩
  · rw [runInserts_eq, okSels_eq]
  · rw [runInserts_eq, okSels_eq]
  · rw [runInserts_eq, failSels_eq]
  · rw [submitPicks_fst ins st u l e pl hu hl he]
    constructor
    · intro hresp
      by_contra habs
      have : ((okSels ins pl).length == 0 && decide (0 < (failSels ins pl).length)) = false := by
        cases hb : ((okSels ins pl).length == 0 && decide (0 < (failSels ins pl).length))
        · rfl
        · exact absurd (hcond.mp hb) habs
      rw [this] at hresp
      simp only [Bool.false_eq_true, if_false] at hresp
      have hsucc := congrArg SaveResp.success hresp
      simp [saveOk, saveAllFailed] at hsucc
    · intro hcl
      rw [hcond.mpr hcl]
      rfl
  · intro hcl
    rw [submitPicks_fst ins st u l e pl hu hl he]
    have : ((okSels ins pl).length == 0 && decide (0 < (failSels ins pl).length)) = false := by
      cases hb : ((okSels ins pl).length == 0 && decide (0 < (failSels ins pl).length))
      · rfl
      · exact absurd (hcond.mp hb) hcl
    rw [this]
    rfl

/-- Witness for C4: two selections, the first fails, the second succeeds. -/
theorem C4_partial_failure_wit :
    truthyStr "u" = true ∧
    (((runInserts (fun i => i == 1) "u" "l" "e" [⟨none, some "f0"⟩, ⟨none, some "f1"⟩] 0).1
        = (okSels (fun i => i == 1) [⟨none, some "f0"⟩, ⟨none, some "f1"⟩]).map
            (fun p => mkPick "u" "l" "e" p.2)) ∧
    ((runInserts (fun i => i == 1) "u" "l" "e" [⟨none, some "f0"⟩, ⟨none, some "f1"⟩] 0).2.1
        = (okSels (fun i => i == 1) [⟨none, some "f0"⟩, ⟨none, some "f1"⟩]).length ∧
      (runInserts (fun i => i == 1) "u" "l" "e" [⟨none, some "f0"⟩, ⟨none, some "f1"⟩] 0).2.2
        = (failSels (fun i => i == 1) [⟨none, some "f0"⟩, ⟨none, some "f1"⟩]).length) ∧
    ((submitPicks (fun i => i == 1) [] "u" "l" "e"
        (some [⟨none, some "f0"⟩, ⟨none, some "f1"⟩])).1 = saveAllFailed ↔
      (attemptedSels [⟨none, some "f0"⟩, ⟨none, some "f1"⟩] ≠ [] ∧
        ∀ p ∈ attemptedSels [⟨none, some "f0"⟩, ⟨none, some "f1"⟩], (fun i => i == 1) p.1 = false)) ∧
    (¬(attemptedSels [⟨none, some "f0"⟩, ⟨none, some "f1"⟩] ≠ [] ∧
        ∀ p ∈ attemptedSels [⟨none, some "f0"⟩, ⟨none, some "f1"⟩], (fun i => i == 1) p.1 = false) →
      (submitPicks (fun i => i == 1) [] "u" "l" "e"
          (some [⟨none, some "f0"⟩, ⟨none, some "f1"⟩])).1 =
        saveOk (okSels (fun i => i == 1) [⟨none, some "f0"⟩, ⟨none, some "f1"⟩]).length
          (failSels (fun i => i == 1) [⟨none, some "f0"⟩, ⟨none, some "f1"⟩]).length)) :=
  ⟨by decide,
    C4_partial_failure (fun i => i == 1) [] "u" "l" "e" [⟨none, some "f0"⟩, ⟨none, some "f1"⟩]
      (by decide) (by decide) (by decide) (by decide)⟩

/-- C10: a selection whose `fighterId` is absent or falsy is skipped
silently — neither inserted nor counted as a failure — so a non-empty
selection list none of whose entries carries a fighter id still deletes the
prior picks for (userId, leagueId, eventId), inserts nothing, and returns
success with `picksCount = 0`. -/
theorem C10_skip_without_fighterId (ins : Nat → Bool) (st : List Pick) (u l e : String)
    (pl : List Sel) (hu : truthyStr u = true) (hl : truthyStr l = true)
    (he : truthyStr e = true) (_hne : pl ≠ [])
    (hall : ∀ s ∈ pl, truthyOpt s.fighterId = false) :
    submitPicks ins st u l e (some pl) =
      (saveOk 0 0, st.filter (fun p => !inScope u l e p)) := by
  unfold submitPicks
  simp only [hu, hl, he, Option.isSome_some, Bool.and_self, Bool.and_true, Bool.not_true,
    Bool.false_eq_true, if_false, Option.getD_some]
  simp only [runInserts_all_skipped ins u l e pl 0 hall]
  simp

/-- Witness for C10: two selections, one with no fighter id and one with an
empty one. -/
theorem C10_skip_without_fighterId_wit :
    truthyStr "u" = true ∧
    submitPicks (fun _ => true) [⟨"u", "l", "e", "old", 2⟩] "u" "l" "e"
        (some [⟨some "fight1", none⟩, ⟨some "fight2", some ""⟩]) =
      (saveOk 0 0,
        ([⟨"u", "l", "e", "old", 2⟩] : List Pick).filter (fun p => !inScope "u" "l" "e" p)) :=
  ⟨by decide,
    C10_skip_without_fighterId (fun _ => true) [⟨"u", "l", "e", "old", 2⟩] "u" "l" "e"
      [⟨some "fight1", none⟩, ⟨some "fight2", some ""⟩] (by decide) (by decide) (by decide)
      (by decide) (by decide)⟩

/-- C7: deleting a league is refused with a conflict whenever a membership
or a pick references it, leaving the league table (and the untouched
membership and pick tables) unchanged; with no referencing rows the
deletion succeeds and removes exactly that league; and with no referencing
rows and no such league it reports not-found with the table unchanged. -/
theorem C7_delete_league (leagues : List League) (ms : List Membership) (picks : List Pick)
    (lid : String) (hlid : truthyStr lid = true) :
    (((∃ m ∈ ms, m.leagueId = lid) ∨ (∃ p ∈ picks, p.leagueId = lid)) →
      ((deleteLeague leagues ms picks lid).1 = .conflictMembers ∨
        (deleteLeague leagues ms picks lid).1 = .conflictPicks) ∧
      (deleteLeague leagues ms picks lid).2 = leagues) ∧
    ((∀ m ∈ ms, m.leagueId ≠ lid) → (∀ p ∈ picks, p.leagueId ≠ lid) →
      (∃ l ∈ leagues, l.leagueId = lid) →
      (deleteLeague leagues ms picks lid).1 = .ok ∧
      (deleteLeague leagues ms picks lid).2 = leagues.filter (fun l => !(l.leagueId == lid))) ∧
    ((∀ m ∈ ms, m.leagueId ≠ lid) → (∀ p ∈ picks, p.leagueId ≠ lid) →
      (∀ l ∈ leagues, l.leagueId ≠ lid) →
      (deleteLeague leagues ms picks lid).1 = .notFound ∧
      (deleteLeague leagues ms picks lid).2 = leagues) := by
  refine ⟨?_, ?_, ?_⟩
  · rintro (⟨m, hm, hmid⟩ | ⟨p, hp, hpid⟩)
    · have hpos : 0 < (ms.filter (fun m => m.leagueId == lid)).length := by
        refine List.length_pos.mpr ?_
        intro habs
        have := List.filter_eq_nil_iff.mp habs m hm
        simp [hmid] at this
      unfold deleteLeague
      simp [hlid, hpos]
    · by_cases hmem : 0 < (ms.filter (fun m => m.leagueId == lid)).length
      · unfold deleteLeague
        simp [hlid, hmem]
      · have hpos : 0 < (picks.filter (fun p => p.leagueId == lid)).length := by
          refine List.length_pos.mpr ?_
          intro habs
          have := List.filter_eq_nil_iff.mp habs p hp
          simp [hpid] at this
        unfold deleteLeague
        simp [hlid, hmem, hpos]
  · intro hm hp ⟨l, hl, hlidl⟩
    have hmnil : (ms.filter (fun m => m.leagueId == lid)).length = 0 := by
      rw [List.length_eq_zero]
      exact List.filter_eq_nil_iff.mpr (fun m hmm => by simp [hm m hmm])
    have hpnil : (picks.filter (fun p => p.leagueId == lid)).length = 0 := by
      rw [List.length_eq_zero]
      exact List.filter_eq_nil_iff.mpr (fun p hpp => by simp [hp p hpp])
    have hfound : ((leagues.filter (fun l => l.leagueId == lid)).length == 0) = false := by
      simp only [beq_eq_false_iff_ne, ne_eq]
      intro habs
      have h0 := List.length_eq_zero.mp habs
      have := List.filter_eq_nil_iff.mp h0 l hl
      simp [hlidl] at this
    unfold deleteLeague
    simp [hlid, hmnil, hpnil, hfound]
  · intro hm hp hl
    have hmnil : (ms.filter (fun m => m.leagueId == lid)).length = 0 := by
      rw [List.length_eq_zero]
      exact List.filter_eq_nil_iff.mpr (fun m hmm => by simp [hm m hmm])
    have hpnil : (picks.filter (fun p => p.leagueId == lid)).length = 0 := by
      rw [List.length_eq_zero]
      exact List.filter_eq_nil_iff.mpr (fun p hpp => by simp [hp p hpp])
    have hlnil : (leagues.filter (fun l => l.leagueId == lid)).length = 0 := by
      rw [List.length_eq_zero]
      exact List.filter_eq_nil_iff.mpr (fun l hll => by simp [hl l hll])
    have hall : leagues.filter (fun l => !(l.leagueId == lid)) = leagues := by
      refine List.filter_eq_self.mpr (fun l hll => ?_)
      simp [hl l hll]
    unfold deleteLeague
    simp [hlid, hmnil, hpnil, hlnil, hall]

/-- Witness for C7: a league with one membership is refused; after removing
the membership the same deletion succeeds. -/
theorem C7_delete_league_wit :
    truthyStr "L1" = true ∧
    ((((∃ m ∈ ([⟨"u1", "L1", "Owner"⟩] : List Membership), m.leagueId = "L1") ∨
        (∃ p ∈ ([] : List Pick), p.leagueId = "L1")) →
      ((deleteLeague [⟨"L1", "My League", "u1", "CODE"⟩] [⟨"u1", "L1", "Owner"⟩] [] "L1").1
          = .conflictMembers ∨
        (deleteLeague [⟨"L1", "My League", "u1", "CODE"⟩] [⟨"u1", "L1", "Owner"⟩] [] "L1").1
          = .conflictPicks) ∧
      (deleteLeague [⟨"L1", "My League", "u1", "CODE"⟩] [⟨"u1", "L1", "Owner"⟩] [] "L1").2
        = [⟨"L1", "My League", "u1", "CODE"⟩]) ∧
    ((∀ m ∈ ([⟨"u1", "L1", "Owner"⟩] : List Membership), m.leagueId ≠ "L1") →
      (∀ p ∈ ([] : List Pick), p.leagueId ≠ "L1") →
      (∃ l ∈ ([⟨"L1", "My League", "u1", "CODE"⟩] : List League), l.leagueId = "L1") →
      (deleteLeague [⟨"L1", "My League", "u1", "CODE"⟩] [⟨"u1", "L1", "Owner"⟩] [] "L1").1 = .ok ∧
      (deleteLeague [⟨"L1", "My League", "u1", "CODE"⟩] [⟨"u1", "L1", "Owner"⟩] [] "L1").2
        = ([⟨"L1", "My League", "u1", "CODE"⟩] : List League).filter
            (fun l => !(l.leagueId == "L1"))) ∧
    ((∀ m ∈ ([⟨"u1", "L1", "Owner"⟩] : List Membership), m.leagueId ≠ "L1") →
      (∀ p ∈ ([] : List Pick), p.leagueId ≠ "L1") →
      (∀ l ∈ ([⟨"L1", "My League", "u1", "CODE"⟩] : List League), l.leagueId ≠ "L1") →
      (deleteLeague [⟨"L1", "My League", "u1", "CODE"⟩] [⟨"u1", "L1", "Owner"⟩] [] "L1").1
          = .notFound ∧
      (deleteLeague [⟨"L1", "My League", "u1", "CODE"⟩] [⟨"u1", "L1", "Owner"⟩] [] "L1").2
        = [⟨"L1", "My League", "u1", "CODE"⟩])) ∧
    (deleteLeague [⟨"L1", "My League", "u1", "CODE"⟩] [] [] "L1").1 = .ok :=
  ⟨by decide,
    C7_delete_league [⟨"L1", "My League", "u1", "CODE"⟩] [⟨"u1", "L1", "Owner"⟩] [] "L1"
      (by decide),
    by decide⟩

/-- C9: `joinLeague` preserves the at-most-one-membership-per-(user, league)
invariant, and a join attempt by a user who already holds a membership in
the league identified by the code is rejected and inserts nothing. -/
theorem C9_join_league (leagues : List League) (ms : List Membership)
    (code uid : String) (hcode : truthyStr code = true) (huid : truthyStr uid = true) :
    ((∀ u l, memCount ms l u ≤ 1) →
      ∀ u l, memCount (joinLeague leagues ms code uid).2 l u ≤ 1) ∧
    (∀ league, (leagues.filter (fun l => l.leagueCode == code)).head? = some league →
      0 < memCount ms league.leagueId uid →
      (joinLeague leagues ms code uid).1 = .alreadyMember ∧
      (joinLeague leagues ms code uid).2 = ms) := by
  have hguard : ∀ league : League,
      (ms.filter (fun m => m.userId == uid && m.leagueId == league.leagueId)).length
        = memCount ms league.leagueId uid := by
    intro league
    unfold memCount
    congr 1
    exact List.filter_congr (fun m _ => by
      cases h1 : m.userId == uid <;> cases h2 : m.leagueId == league.leagueId <;> simp [h1, h2])
  constructor
  · intro hinv u l
    unfold joinLeague
    simp only [hcode, huid, Bool.and_self, Bool.not_true, Bool.false_eq_true, if_false]
    cases hh : (leagues.filter (fun l => l.leagueCode == code)).head? with
    | none => exact hinv u l
    | some league =>
      simp only
      by_cases hex :
          0 < (ms.filter (fun m => m.userId == uid && m.leagueId == league.leagueId)).length
      · simp only [hex, if_true]
        exact hinv u l
      · simp only [hex, if_false]
        unfold memCount
        rw [List.filter_append]
        by_cases hme : (l == league.leagueId && u == uid) = true
        · have hl : l = league.leagueId := by
            have := (Bool.and_eq_true _ _).mp hme
            exact eq_of_beq this.1
          have hu : u = uid := by
            have := (Bool.and_eq_true _ _).mp hme
            exact eq_of_beq this.2
          have hnil : ms.filter (fun m => m.leagueId == l && m.userId == u) = [] := by
            rw [hl, hu]
            have h0 : memCount ms league.leagueId uid = 0 := by
              rw [← hguard league]
              omega
            unfold memCount at h0
            exact List.length_eq_zero.mp h0
          rw [hnil]
          simp only [List.nil_append]
          exact le_trans (List.length_filter_le _ _) (by simp)
        · have hpredf : ((league.leagueId == l) && (uid == u)) = false := by
            cases hb : ((league.leagueId == l) && (uid == u))
            · rfl
            · exfalso
              have hp := (Bool.and_eq_true _ _).mp hb
              exact hme (by
                simp only [Bool.and_eq_true, beq_iff_eq]
                exact ⟨(eq_of_beq hp.1).symm, (eq_of_beq hp.2).symm⟩)
          have hsingle :
              ([⟨uid, league.leagueId, "Member"⟩] : List Membership).filter
                (fun m => m.leagueId == l && m.userId == u) = [] := by
            simp [List.filter_cons, hpredf]
          rw [hsingle]
          simpa [memCount] using hinv u l
  · intro league hh hex
    unfold joinLeague
    simp only [hcode, huid, Bool.and_self, Bool.not_true, Bool.false_eq_true, if_false, hh]
    rw [hguard league]
    simp [hex]

/-- Witness for C9 at a concrete two-table state: the owner rejoining their
own league is refused. -/
theorem C9_join_league_wit :
    truthyStr "CODE" = true ∧
    (((∀ u l, memCount ([⟨"u1", "L1", "Owner"⟩] : List Membership) l u ≤ 1) →
      ∀ u l,
        memCount (joinLeague [⟨"L1", "My League", "u1", "CODE"⟩] [⟨"u1", "L1", "Owner"⟩]
          "CODE" "u1").2 l u ≤ 1) ∧
    (∀ league,
      (([⟨"L1", "My League", "u1", "CODE"⟩] : List League).filter
        (fun l => l.leagueCode == "CODE")).head? = some league →
      0 < memCount ([⟨"u1", "L1", "Owner"⟩] : List Membership) league.leagueId "u1" →
      (joinLeague [⟨"L1", "My League", "u1", "CODE"⟩] [⟨"u1", "L1", "Owner"⟩] "CODE" "u1").1
          = .alreadyMember ∧
      (joinLeague [⟨"L1", "My League", "u1", "CODE"⟩] [⟨"u1", "L1", "Owner"⟩] "CODE" "u1").2
          = [⟨"u1", "L1", "Owner"⟩])) ∧
    (joinLeague [⟨"L1", "My League", "u1", "CODE"⟩] [⟨"u1", "L1", "Owner"⟩] "CODE" "u1").1
      = .alreadyMember :=
  ⟨by decide,
    C9_join_league [⟨"L1", "My League", "u1", "CODE"⟩] [⟨"u1", "L1", "Owner"⟩] "CODE" "u1"
      (by decide) (by decide),
    by decide⟩

/-- C8: a name query matching no fighter yields a successful empty result
set carrying the informational `No fighters found` message, while a query
matching fighters that have no recorded fights yields a successful empty
result set with no message but a non-empty `fighters` field — the two
responses are distinguishable. -/
theorem C8_history_empty_cases (fighters : List Fighter) (events : List Event)
    (fights : List Fight) (q : String) (hq : truthyStr q = true) :
    (matchedFighters fighters q = [] →
      getFighterHistory fighters events fights q = ⟨true, [], [], some "No fighters found"⟩) ∧
    (matchedFighters fighters q ≠ [] →
      (getFighterHistory fighters events fights q).success = true ∧
      (getFighterHistory fighters events fights q).fighters = matchedFighters fighters q ∧
      (getFighterHistory fighters events fights q).message = none ∧
      (historyJoinRows fights events fighters
          ((matchedFighters fighters q).map (fun f => f.fighter_id)) = [] →
        (getFighterHistory fighters events fights q).data = [])) := by
  constructor
  · intro hmat
    unfold getFighterHistory
    simp [hq, hmat]
  · intro hne
    have hie : (matchedFighters fighters q).isEmpty = false := List.isEmpty_eq_false.mpr hne
    unfold getFighterHistory
    simp only [hq, Bool.not_true, Bool.false_eq_true, if_false, hie]
    refine ⟨by trivial, by trivial, by trivial, ?_⟩
    intro hrows
    simp [hrows, List.insertionSort]

/-- Witness for C8: one fighter with no fights, queried by a matching name. -/
theorem C8_history_empty_cases_wit :
    truthyStr "jones" = true ∧
    ((matchedFighters [⟨"f1", "Jon Jones", some 26, some 1, some 0⟩] "jones" = [] →
      getFighterHistory [⟨"f1", "Jon Jones", some 26, some 1, some 0⟩] [] [] "jones"
        = ⟨true, [], [], some "No fighters found"⟩) ∧
    (matchedFighters [⟨"f1", "Jon Jones", some 26, some 1, some 0⟩] "jones" ≠ [] →
      (getFighterHistory [⟨"f1", "Jon Jones", some 26, some 1, some 0⟩] [] [] "jones").success
          = true ∧
      (getFighterHistory [⟨"f1", "Jon Jones", some 26, some 1, some 0⟩] [] [] "jones").fighters
          = matchedFighters [⟨"f1", "Jon Jones", some 26, some 1, some 0⟩] "jones" ∧
      (getFighterHistory [⟨"f1", "Jon Jones", some 26, some 1, some 0⟩] [] [] "jones").message
          = none ∧
      (historyJoinRows [] [] [⟨"f1", "Jon Jones", some 26, some 1, some 0⟩]
          ((matchedFighters [⟨"f1", "Jon Jones", some 26, some 1, some 0⟩] "jones").map
            (fun f => f.fighter_id)) = [] →
        (getFighterHistory [⟨"f1", "Jon Jones", some 26, some 1, some 0⟩] [] [] "jones").data
          = []))) ∧
    getFighterHistory ([] : List Fighter) [] [] "jones"
      = ⟨true, [], [], some "No fighters found"⟩ :=
  ⟨by decide,
    C8_history_empty_cases [⟨"f1", "Jon Jones", some 26, some 1, some 0⟩] [] [] "jones"
      (by decide),
    by decide⟩

/-- C6: every fight view of `GET /api/event/:eventId/fights` comes from a
fight row of the event; its result is `Pending` without a (truthy) winner
id, `<name> Win` naming the matching corner when the winner id equals a
corner's fighter id, and `Draw/No Contest` when a winner id is present but
matches neither corner; a corner whose fighter is missing from the fighter
map gets the `Unknown` name and empty record sentinel, a present fighter's
record is synthesized as `wins-losses-draws`, and an absent division falls
back to `Catchweight`. -/
theorem C6_fight_views (fights : List Fight) (fighters : List Fighter) (eid : String)
    (row : Fight) (hrow : row ∈ fights) (hev : (row.event_id == eid) = true) :
    mkFightView fighters row ∈ getFightsForEvent fights fighters eid ∧
    (truthyOpt row.winner_id = false → (mkFightView fighters row).result = "Pending") ∧
    (truthyOpt row.winner_id = true → row.winner_id = some row.red_fighter_id →
      (mkFightView fighters row).result = (mkFightView fighters row).fighterAName ++ " Win") ∧
    (truthyOpt row.winner_id = true → row.winner_id ≠ some row.red_fighter_id →
      row.winner_id = some row.blue_fighter_id →
      (mkFightView fighters row).result = (mkFightView fighters row).fighterBName ++ " Win") ∧
    (truthyOpt row.winner_id = true → row.winner_id ≠ some row.red_fighter_id →
      row.winner_id ≠ some row.blue_fighter_id →
      (mkFightView fighters row).result = "Draw/No Contest") ∧
    (lookupFighterInfo fighters row.red_fighter_id = none →
      (mkFightView fighters row).fighterAName = "Unknown" ∧
      (mkFightView fighters row).fighterARecord = "") ∧
    (∀ info, lookupFighterInfo fighters row.red_fighter_id = some info →
      (mkFightView fighters row).fighterAName = info.name ∧
      (mkFightView fighters row).fighterARecord = info.record) ∧
    (lookupFighterInfo fighters row.blue_fighter_id = none →
      (mkFightView fighters row).fighterBName = "Unknown" ∧
      (mkFightView fighters row).fighterBRecord = "") ∧
    (∀ f : Fighter, ∀ w lo d : Int, f.wins = some w → f.losses = some lo → f.draws = some d →
      recordStr f = toString w ++ "-" ++ toString lo ++ "-" ++ toString d) ∧
    ((row.division = none ∨ row.division = some "") →
      (mkFightView fighters row).weightClass = "Catchweight") := by
  refine ⟨?_, ?_, ?_, ?_, ?_, ?_, ?_, ?_, ?_, ?_⟩
  · unfold getFightsForEvent
    exact List.mem_map_of_mem _ (List.mem_filter.mpr ⟨hrow, hev⟩)
  · intro hw
    simp [mkFightView, hw]
  · intro hw hwa
    have hb : (row.winner_id == some row.red_fighter_id) = true := beq_iff_eq.mpr hwa
    simp [mkFightView, hw, hb]
  · intro hw hwa hwb
    have hba : (row.winner_id == some row.red_fighter_id) = false := by
      cases hc : (row.winner_id == some row.red_fighter_id)
      · rfl
      · exact absurd (eq_of_beq hc) hwa
    have hbb : (row.winner_id == some row.blue_fighter_id) = true := beq_iff_eq.mpr hwb
    simp [mkFightView, hw, hba, hbb]
  · intro hw hwa hwb
    have hba : (row.winner_id == some row.red_fighter_id) = false := by
      cases hc : (row.winner_id == some row.red_fighter_id)
      · rfl
      · exact absurd (eq_of_beq hc) hwa
    have hbb : (row.winner_id == some row.blue_fighter_id) = false := by
      cases hc : (row.winner_id == some row.blue_fighter_id)
      · rfl
      · exact absurd (eq_of_beq hc) hwb
    simp [mkFightView, hw, hba, hbb]
  · intro hnone
    simp [mkFightView, hnone]
  · intro info hsome
    simp [mkFightView, hsome]
  · intro hnone
    simp [mkFightView, hnone]
  · intro f w lo d hw hlo hd
    simp [recordStr, jsShowOptInt, hw, hlo, hd]
  · rintro (hdiv | hdiv) <;> simp [mkFightView, jsOr, hdiv]

/-- Witness for C6: an event with a single pending fight whose corners are
absent from the fighter table. -/
theorem C6_fight_views_wit :
    (⟨"ft1", "e1", "r1", "b1", none, none, none, none⟩ : Fight) ∈
      ([⟨"ft1", "e1", "r1", "b1", none, none, none, none⟩] : List Fight) ∧
    (mkFightView [] ⟨"ft1", "e1", "r1", "b1", none, none, none, none⟩ ∈
      getFightsForEvent [⟨"ft1", "e1", "r1", "b1", none, none, none, none⟩] [] "e1") ∧
    (mkFightView [] ⟨"ft1", "e1", "r1", "b1", none, none, none, none⟩).result = "Pending" ∧
    (mkFightView [] ⟨"ft1", "e1", "r1", "b1", none, none, none, none⟩).fighterAName
      = "Unknown" ∧
    (mkFightView [] ⟨"ft1", "e1", "r1", "b1", none, none, none, none⟩).fighterARecord = "" ∧
    (mkFightView [] ⟨"ft1", "e1", "r1", "b1", none, none, none, none⟩).weightClass
      = "Catchweight" := by
  have h := C6_fight_views [⟨"ft1", "e1", "r1", "b1", none, none, none, none⟩] [] "e1"
    ⟨"ft1", "e1", "r1", "b1", none, none, none, none⟩ (by decide) (by decide)
  exact ⟨by decide, h.1, h.2.1 (by decide), (h.2.2.2.2.2.1 (by decide)).1,
    (h.2.2.2.2.2.1 (by decide)).2, h.2.2.2.2.2.2.2.2.2 (Or.inl rfl)⟩

/-- The result field as claim C5 words it, relative to one matched corner
fighter `myId`: `Win` when the winner id equals `myId`, `Loss` when a
winner id exists and differs, the literal method string when no winner is
recorded and the method is `Draw` or `No Contest`, `Pending` otherwise. -/
def resultPerClaim (f : Fight) (myId : String) : String :=
  if truthyOpt f.winner_id && (f.winner_id == some myId) then "Win"
  else if truthyOpt f.winner_id then "Loss"
  else if f.method == some "Draw" || f.method == some "No Contest" then (f.method).getD ""
  else "Pending"

/-- Structure of a history join row: the fight passed the matched-corner
guard and each joined fighter record is the fighter of its corner. -/
theorem mem_historyJoinRows (fights : List Fight) (events : List Event)
    (fighters : List Fighter) (ids : List String) (jr : JoinRow)
    (h : jr ∈ historyJoinRows fights events fighters ids) :
    (ids.contains jr.fight.red_fighter_id || ids.contains jr.fight.blue_fighter_id) = true ∧
    jr.fa.fighter_id = jr.fight.red_fighter_id ∧
    jr.fb.fighter_id = jr.fight.blue_fighter_id ∧
    jr.event.event_id = jr.fight.event_id := by
  unfold historyJoinRows at h
  rw [List.mem_flatMap] at h
  obtain ⟨f, _, hin⟩ := h
  by_cases hg : (ids.contains f.red_fighter_id || ids.contains f.blue_fighter_id) = true
  · rw [if_pos hg] at hin
    rw [List.mem_flatMap] at hin
    obtain ⟨e, he, hin⟩ := hin
    rw [List.mem_flatMap] at hin
    obtain ⟨fa, hfa, hin⟩ := hin
    rw [List.mem_map] at hin
    obtain ⟨fb, hfb, rfl⟩ := hin
    have hea := (List.mem_filter.mp he).2
    have hfa2 := (List.mem_filter.mp hfa).2
    have hfb2 := (List.mem_filter.mp hfb).2
    exact ⟨hg, eq_of_beq hfa2, eq_of_beq hfb2, eq_of_beq hea⟩
  · rw [if_neg hg] at hin
    exact absurd hin (List.not_mem_nil jr)

/-- The processed record is the claim's derivation relative to some matched
fighter occupying a corner of the fight. -/
theorem processFight_spec (ids : List String) (jr : JoinRow)
    (hguard : (ids.contains jr.fight.red_fighter_id ||
      ids.contains jr.fight.blue_fighter_id) = true) :
    ∃ myId ∈ ids,
      (myId = jr.fight.red_fighter_id ∨ myId = jr.fight.blue_fighter_id) ∧
      (processFight ids jr).result = resultPerClaim jr.fight myId ∧
      (processFight ids jr).opponent =
        (if myId = jr.fight.red_fighter_id then jr.fb.name else jr.fa.name) := by
  by_cases hA : ids.contains jr.fight.red_fighter_id = true
  · have hAm : jr.fight.red_fighter_id ∈ ids := by simpa using hA
    refine ⟨jr.fight.red_fighter_id, hAm, Or.inl rfl, ?_, ?_⟩
    · by_cases ht : truthyOpt jr.fight.winner_id = true
      · by_cases hw : (jr.fight.winner_id == some jr.fight.red_fighter_id) = true
        · have ht2 : truthyOpt (some jr.fight.red_fighter_id) = true := eq_of_beq hw ▸ ht
          simp [processFight, resultPerClaim, hA, hAm, ht, hw, eq_of_beq hw, ht2]
        · have hwne : jr.fight.winner_id ≠ some jr.fight.red_fighter_id :=
            fun habs => hw (beq_iff_eq.mpr habs)
          simp [processFight, resultPerClaim, hA, hAm, ht, Bool.eq_false_iff.mpr hw, hwne]
      · have ht' : truthyOpt jr.fight.winner_id = false := Bool.eq_false_iff.mpr ht
        simp [processFight, resultPerClaim, hA, hAm, ht']
    · simp [processFight, hA, hAm]
  · have hA' : ids.contains jr.fight.red_fighter_id = false := Bool.eq_false_iff.mpr hA
    have hAnm : jr.fight.red_fighter_id ∉ ids := by
      intro habs
      exact hA (by simpa using habs)
    have hB : ids.contains jr.fight.blue_fighter_id = true := by
      rcases Bool.or_eq_true_iff.mp hguard with h | h
      · exact absurd h hA
      · exact h
    have hBm : jr.fight.blue_fighter_id ∈ ids := by simpa using hB
    have hne : jr.fight.blue_fighter_id ≠ jr.fight.red_fighter_id := by
      intro habs
      rw [habs] at hB
      exact hA hB
    refine ⟨jr.fight.blue_fighter_id, hBm, Or.inr rfl, ?_, ?_⟩
    · by_cases ht : truthyOpt jr.fight.winner_id = true
      · by_cases hw : (jr.fight.winner_id == some jr.fight.blue_fighter_id) = true
        · have ht2 : truthyOpt (some jr.fight.blue_fighter_id) = true := eq_of_beq hw ▸ ht
          simp [processFight, resultPerClaim, hA', hAnm, ht, hw, eq_of_beq hw, ht2]
        · have hwne : jr.fight.winner_id ≠ some jr.fight.blue_fighter_id :=
            fun habs => hw (beq_iff_eq.mpr habs)
          simp [processFight, resultPerClaim, hA', hAnm, ht, Bool.eq_false_iff.mpr hw, hwne]
      · have ht' : truthyOpt jr.fight.winner_id = false := Bool.eq_false_iff.mpr ht
        simp [processFight, resultPerClaim, hA', hAnm, ht']
    · simp [processFight, hA', hAnm, hne]

/-- C5: every record returned by the history resolver comes from a join row
whose corner fighter records match the corners; its result field is the
claim's Win/Loss/method/Pending derivation relative to a matched fighter
occupying one of the corners, its opponent field names the other corner,
and the records are ordered by descending event date. -/
theorem C5_history_result_derivation (fighters : List Fighter) (events : List Event)
    (fights : List Fight) (q : String) :
    (∀ r ∈ (getFighterHistory fighters events fights q).data,
      ∃ jr ∈ historyJoinRows fights events fighters
          ((matchedFighters fighters q).map (fun f => f.fighter_id)),
        r = processFight ((matchedFighters fighters q).map (fun f => f.fighter_id)) jr ∧
        jr.fa.fighter_id = jr.fight.red_fighter_id ∧
        jr.fb.fighter_id = jr.fight.blue_fighter_id ∧
        ∃ myId ∈ (matchedFighters fighters q).map (fun f => f.fighter_id),
          (myId = jr.fight.red_fighter_id ∨ myId = jr.fight.blue_fighter_id) ∧
          r.result = resultPerClaim jr.fight myId ∧
          r.opponent = (if myId = jr.fight.red_fighter_id then jr.fb.name else jr.fa.name)) ∧
    List.Pairwise (fun a b => b.eventDate ≤ a.eventDate)
      (getFighterHistory fighters events fights q).data := by
  by_cases hq : truthyStr q = true
  · by_cases hmat : (matchedFighters fighters q).isEmpty = true
    · constructor
      · intro r hr
        unfold getFighterHistory at hr
        simp [hq, hmat] at hr
      · unfold getFighterHistory
        simp [hq, hmat]
    · have hmat' : (matchedFighters fighters q).isEmpty = false := Bool.eq_false_iff.mpr hmat
      have hdata : (getFighterHistory fighters events fights q).data =
          (List.insertionSort dateDescRel (historyJoinRows fights events fighters
            ((matchedFighters fighters q).map (fun f => f.fighter_id)))).map
            (processFight ((matchedFighters fighters q).map (fun f => f.fighter_id))) := by
        unfold getFighterHistory
        simp [hq, hmat']
      constructor
      · intro r hr
        rw [hdata] at hr
        rw [List.mem_map] at hr
        obtain ⟨jr, hjr, rfl⟩ := hr
        rw [List.mem_insertionSort] at hjr
        have hstruct := mem_historyJoinRows fights events fighters _ jr hjr
        obtain ⟨myId, hmem, hcorner, hres, hopp⟩ := processFight_spec _ jr hstruct.1
        exact ⟨jr, hjr, rfl, hstruct.2.1, hstruct.2.2.1,
          myId, hmem, hcorner, hres, hopp⟩
      · rw [hdata]
        have hsorted : List.Sorted dateDescRel
            (List.insertionSort dateDescRel (historyJoinRows fights events fighters
              ((matchedFighters fighters q).map (fun f => f.fighter_id)))) :=
          List.sorted_insertionSort dateDescRel _
        exact hsorted.map _ (fun a b hab => hab)
  · have hq' : truthyStr q = false := Bool.eq_false_iff.mpr hq
    constructor
    · intro r hr
      unfold getFighterHistory at hr
      simp [hq'] at hr
    · unfold getFighterHistory
      simp [hq']

/-- Witness for C5: one decided fight, the matched fighter in the red
corner, winner equal to the matched fighter. -/
theorem C5_history_result_derivation_wit :
    (⟨"UFC 300", 100, "Vegas", "Daniel", "Win", some "KO", some "2"⟩ : HistRow) ∈
      (getFighterHistory
        [⟨"f1", "Jon Jones", some 26, some 1, some 0⟩, ⟨"f2", "Daniel", some 20, some 3, some 0⟩]
        [⟨"e1", "UFC 300", 100, "Vegas"⟩]
        [⟨"b1", "e1", "f1", "f2", some "f1", some "KO", some "2", some "LHW"⟩]
        "jones").data ∧
    (∃ jr ∈ historyJoinRows
        [⟨"b1", "e1", "f1", "f2", some "f1", some "KO", some "2", some "LHW"⟩]
        [⟨"e1", "UFC 300", 100, "Vegas"⟩]
        [⟨"f1", "Jon Jones", some 26, some 1, some 0⟩, ⟨"f2", "Daniel", some 20, some 3, some 0⟩]
        ((matchedFighters
          [⟨"f1", "Jon Jones", some 26, some 1, some 0⟩,
            ⟨"f2", "Daniel", some 20, some 3, some 0⟩] "jones").map (fun f => f.fighter_id)),
      (⟨"UFC 300", 100, "Vegas", "Daniel", "Win", some "KO", some "2"⟩ : HistRow) =
        processFight ((matchedFighters
          [⟨"f1", "Jon Jones", some 26, some 1, some 0⟩,
            ⟨"f2", "Daniel", some 20, some 3, some 0⟩] "jones").map (fun f => f.fighter_id)) jr ∧
      jr.fa.fighter_id = jr.fight.red_fighter_id ∧
      jr.fb.fighter_id = jr.fight.blue_fighter_id ∧
      ∃ myId ∈ (matchedFighters
          [⟨"f1", "Jon Jones", some 26, some 1, some 0⟩,
            ⟨"f2", "Daniel", some 20, some 3, some 0⟩] "jones").map (fun f => f.fighter_id),
        (myId = jr.fight.red_fighter_id ∨ myId = jr.fight.blue_fighter_id) ∧
        (⟨"UFC 300", 100, "Vegas", "Daniel", "Win", some "KO", some "2"⟩ : HistRow).result =
          resultPerClaim jr.fight myId ∧
        (⟨"UFC 300", 100, "Vegas", "Daniel", "Win", some "KO", some "2"⟩ : HistRow).opponent =
          (if myId = jr.fight.red_fighter_id then jr.fb.name else jr.fa.name)) :=
  ⟨by decide,
    (C5_history_result_derivation
      [⟨"f1", "Jon Jones", some 26, some 1, some 0⟩, ⟨"f2", "Daniel", some 20, some 3, some 0⟩]
      [⟨"e1", "UFC 300", 100, "Vegas"⟩]
      [⟨"b1", "e1", "f1", "f2", some "f1", some "KO", some "2", some "LHW"⟩]
      "jones").1
      ⟨"UFC 300", 100, "Vegas", "Daniel", "Win", some "KO", some "2"⟩ (by decide)⟩

/-! ### Helper lemmas: the leaderboard aggregation -/

/-- The users holding a membership in the league: the claim's member set. -/
def leagueMembers (users : List User) (ms : List Membership) (lid : String) : List User :=
  users.filter (fun u => decide (0 < memCount ms lid u.userId))

/-- The leaderboard row claim C3 specifies for a member: the user's ids and
the sum of `PointsEarned` over the user's picks in the league. -/
def lbRowPerClaim (picks : List Pick) (lid : String) (u : User) : LBRow :=
  ⟨u.userId, u.username, u.email, sumPoints picks lid u.userId⟩

/-- When each user holds at most one membership in the league, the
user-membership join lists each member exactly once. -/
theorem joinUM_eq_members (users : List User) (ms : List Membership) (lid : String)
    (h : ∀ uid, memCount ms lid uid ≤ 1) :
    joinUM users ms lid = leagueMembers users ms lid := by
  induction users with
  | nil => rfl
  | cons u us ih =>
    have hstep : joinUM (u :: us) ms lid
        = List.replicate (memCount ms lid u.userId) u ++ joinUM us ms lid := by
      unfold joinUM
      rw [List.flatMap_cons]
    have hstep2 : leagueMembers (u :: us) ms lid
        = if decide (0 < memCount ms lid u.userId) = true
          then u :: leagueMembers us ms lid else leagueMembers us ms lid := by
      unfold leagueMembers
      rw [List.filter_cons]
    rw [hstep, hstep2, ih]
    rcases Nat.le_one_iff_eq_zero_or_eq_one.mp (h u.userId) with h0 | h1
    · rw [h0]
      simp
    · rw [h1]
      simp

/-- A list of users with pairwise-distinct ids is its own group-key list. -/
theorem groupKeys_of_nodup (l : List User) (h : (l.map (fun u => u.userId)).Nodup) :
    groupKeys l = l := by
  induction l with
  | nil => simp [groupKeys]
  | cons u rest ih =>
    rw [List.map_cons, List.nodup_cons] at h
    obtain ⟨hnotin, hnd⟩ := h
    have hfilter : rest.filter (fun v => !userKeyEq v u) = rest := by
      refine List.filter_eq_self.mpr (fun v hv => ?_)
      have hne : v.userId ≠ u.userId :=
        fun habs => hnotin (habs ▸ List.mem_map_of_mem _ hv)
      cases hbeq : (v.userId == u.userId)
      · simp [userKeyEq, hbeq]
      · exact absurd (eq_of_beq hbeq) hne
    rw [groupKeys, hfilter, ih hnd]

/-- Among users with pairwise-distinct ids, the grouping key of a member
matches exactly itself. -/
theorem keyCount_of_nodup (l : List User) (h : (l.map (fun u => u.userId)).Nodup)
    (u : User) (hu : u ∈ l) :
    (l.filter (fun v => userKeyEq v u)).length = 1 := by
  induction l with
  | nil => cases hu
  | cons w ws ih =>
    rw [List.map_cons, List.nodup_cons] at h
    obtain ⟨hnotin, hnd⟩ := h
    rw [List.filter_cons]
    rcases List.mem_cons.mp hu with rfl | hmem
    · have hself : userKeyEq u u = true := by simp [userKeyEq]
      rw [hself]
      have hnil : ws.filter (fun v => userKeyEq v u) = [] := by
        refine List.filter_eq_nil_iff.mpr (fun v hv habs => ?_)
        have := (Bool.and_eq_true _ _).mp ((Bool.and_eq_true _ _).mp habs).1
        exact hnotin (eq_of_beq this.1 ▸ List.mem_map_of_mem _ hv)
      simp [hnil]
    · have hwu : userKeyEq w u = false := by
        have hne : w.userId ≠ u.userId := by
          intro habs
          exact hnotin (habs ▸ List.mem_map_of_mem (fun x => x.userId) hmem)
        cases hbeq : (w.userId == u.userId)
        · simp [userKeyEq, hbeq]
        · exact absurd (eq_of_beq hbeq) hne
      rw [hwu]
      simpa using ih hnd hmem

/-- Under the hypotheses of C3 the pre-sort leaderboard rows are exactly
the claim's rows, one per member. -/
theorem leaderboard_rows_eq (users : List User) (ms : List Membership) (picks : List Pick)
    (lid : String) (hnodup : (users.map (fun u => u.userId)).Nodup)
    (hms : ∀ uid, memCount ms lid uid ≤ 1) :
    (groupKeys (joinUM users ms lid)).map (mkRow (joinUM users ms lid) picks lid) =
      (leagueMembers users ms lid).map (lbRowPerClaim picks lid) := by
  have hj := joinUM_eq_members users ms lid hms
  have hmemnodup : ((leagueMembers users ms lid).map (fun u => u.userId)).Nodup :=
    hnodup.sublist ((List.filter_sublist users).map (fun u => u.userId))
  rw [hj, groupKeys_of_nodup _ hmemnodup]
  refine List.map_congr_left (fun u hu => ?_)
  unfold mkRow lbRowPerClaim
  rw [keyCount_of_nodup _ hmemnodup u hu]
  simp

/-- C3: under unique user ids and at-most-one membership per (user, league),
the leaderboard is a permutation of one claim-row per league member (so each
member appears exactly once, with total points the sum of their picks'
points in the league, zero when they have none), it is sorted by total
points descending with ties broken by ascending username, and every member
— including members with no picks — appears with the stated totals. -/
theorem C3_leaderboard (users : List User) (ms : List Membership) (picks : List Pick)
    (lid : String) (hnodup : (users.map (fun u => u.userId)).Nodup)
    (hms : ∀ uid, memCount ms lid uid ≤ 1) :
    (getLeaderboard users ms picks lid).Perm
      ((leagueMembers users ms lid).map (lbRowPerClaim picks lid)) ∧
    List.Sorted lbRel (getLeaderboard users ms picks lid) ∧
    (∀ u ∈ users, 0 < memCount ms lid u.userId →
      ∃ r ∈ getLeaderboard users ms picks lid,
        r.userId = u.userId ∧ r.username = u.username ∧
        r.totalPoints = sumPoints picks lid u.userId) := by
  have heq := leaderboard_rows_eq users ms picks lid hnodup hms
  have hperm : (getLeaderboard users ms picks lid).Perm
      ((leagueMembers users ms lid).map (lbRowPerClaim picks lid)) := by
    show (List.insertionSort lbRel ((groupKeys (joinUM users ms lid)).map
      (mkRow (joinUM users ms lid) picks lid))).Perm _
    rw [heq]
    exact List.perm_insertionSort lbRel _
  refine ⟨hperm, ?_, ?_⟩
  · show List.Sorted lbRel (List.insertionSort lbRel ((groupKeys (joinUM users ms lid)).map
      (mkRow (joinUM users ms lid) picks lid)))
    exact List.sorted_insertionSort lbRel _
  · intro u hu hmem
    have humem : u ∈ leagueMembers users ms lid :=
      List.mem_filter.mpr ⟨hu, by simpa using hmem⟩
    have hrow : lbRowPerClaim picks lid u ∈
        (leagueMembers users ms lid).map (lbRowPerClaim picks lid) :=
      List.mem_map_of_mem _ humem
    exact ⟨lbRowPerClaim picks lid u, hperm.mem_iff.mpr hrow, rfl, rfl, rfl⟩

/-- Witness for C3: two users, one a member with a pick, one a non-member. -/
theorem C3_leaderboard_wit :
    (([⟨"u1", "alice", "a@x"⟩, ⟨"u2", "bob", "b@x"⟩] : List User).map
      (fun u => u.userId)).Nodup ∧
    ((getLeaderboard [⟨"u1", "alice", "a@x"⟩, ⟨"u2", "bob", "b@x"⟩] [⟨"u1", "L", "Owner"⟩]
        [⟨"u1", "L", "e1", "f1", 3⟩] "L").Perm
      ((leagueMembers [⟨"u1", "alice", "a@x"⟩, ⟨"u2", "bob", "b@x"⟩] [⟨"u1", "L", "Owner"⟩]
        "L").map (lbRowPerClaim [⟨"u1", "L", "e1", "f1", 3⟩] "L")) ∧
    List.Sorted lbRel (getLeaderboard [⟨"u1", "alice", "a@x"⟩, ⟨"u2", "bob", "b@x"⟩]
      [⟨"u1", "L", "Owner"⟩] [⟨"u1", "L", "e1", "f1", 3⟩] "L") ∧
    (∀ u ∈ ([⟨"u1", "alice", "a@x"⟩, ⟨"u2", "bob", "b@x"⟩] : List User),
      0 < memCount [⟨"u1", "L", "Owner"⟩] "L" u.userId →
      ∃ r ∈ getLeaderboard [⟨"u1", "alice", "a@x"⟩, ⟨"u2", "bob", "b@x"⟩]
          [⟨"u1", "L", "Owner"⟩] [⟨"u1", "L", "e1", "f1", 3⟩] "L",
        r.userId = u.userId ∧ r.username = u.username ∧
        r.totalPoints = sumPoints [⟨"u1", "L", "e1", "f1", 3⟩] "L" u.userId)) :=
  ⟨by decide,
    C3_leaderboard [⟨"u1", "alice", "a@x"⟩, ⟨"u2", "bob", "b@x"⟩] [⟨"u1", "L", "Owner"⟩]
      [⟨"u1", "L", "e1", "f1", 3⟩] "L" (by decide)
      (fun uid => by
        unfold memCount
        simpa using List.length_filter_le
          (fun (m : Membership) => m.leagueId == "L" && m.userId == uid)
          [⟨"u1", "L", "Owner"⟩])⟩

end UFC
